import Mathlib

/-!
Shallow embedding of `lib/Mandelbrot.js` (Sparkx120/mandelbrot-js).

JavaScript numbers are embedded as exact rationals (`ℚ`), pixel indices and
iteration counts as `ℕ`.  Decimal literals such as `3.5`, `1.4`, `0.09`,
`11.112347`, `2.4` and `0.0000000001` are exact rationals here, matching the
source text of the constants.  The only transcendental operation in the source,
`Math.log`, is kept abstract: the pixel shader is parameterised by a function
`log : ℚ → ℚ`, so every statement proved about control flow and about the
arguments fed to `log` holds for the actual logarithm.
-/

namespace MandelbrotJS

/-! ## Viewport transform (`_baseRender`, lines 149-158)

The source computes, inside `_baseRender`,

  var widthScalar  = 3.5/scale;
  var heightScalar = (3.5*height/width)/scale;
  var Tx = Px-(e.data.xDelta*scale);
  var Ty = Py-(e.data.yDelta*scale);
  var x0 = ((widthScalar/width)*(Tx)) - widthScalar/1.4;
  var y0 = ((heightScalar/height)*(Ty)) - heightScalar/2;
-/

def widthScalar (scale : ℚ) : ℚ := 3.5 / scale

def heightScalar (width height : ℕ) (scale : ℚ) : ℚ :=
  (3.5 * (height : ℚ) / (width : ℚ)) / scale

def viewportTransform (Px Py width height : ℕ) (scale xDelta yDelta : ℚ) :
    ℚ × ℚ :=
  let ws := widthScalar scale
  let hs := heightScalar width height scale
  let Tx : ℚ := (Px : ℚ) - xDelta * scale
  let Ty : ℚ := (Py : ℚ) - yDelta * scale
  ((ws / (width : ℚ)) * Tx - ws / 1.4, (hs / (height : ℚ)) * Ty - hs / 2)

/-- The viewport mapping exactly as displayed in the specification
(section 4.1), written from the spec's formulas for the refinement
comparison of claim C2. -/
def viewportTransformSpec (Px Py W H : ℕ) (s dx dy : ℚ) : ℚ × ℚ :=
  ((3.5 / s / (W : ℚ)) * ((Px : ℚ) - dx * s) - (3.5 / s) / 1.4,
   (((3.5 * (H : ℚ) / (W : ℚ)) / s) / (H : ℚ)) * ((Py : ℚ) - dy * s)
     - ((3.5 * (H : ℚ) / (W : ℚ)) / s) / 2)

/-! ## Escape-time evaluator (`_baseRender`, lines 159-169)

  var x = 0; var y = 0; var iteration = 0;
  while (x*x + y*y < 4 && iteration < iterations) {
    var xtemp = x*x - y*y + x0;
    y = 2*x*y + y0;
    x = xtemp;
    iteration ++;
  }
  var intensity = ((iteration==iterations) ? 0 : iteration)/iterations;

The `while` loop is translated with explicit fuel.  Because the guard already
contains `iteration < iterations`, starting with `fuel = iterations` and
`iteration = 0` never exhausts the fuel before the guard fails: each recursive
step consumes one unit of fuel and increments `iteration` by one, so
`fuel = iterations - iteration` throughout and the guard fails no later than
the step where fuel would reach zero.  The translation is therefore exact. -/

def escapeSteps (x0 y0 : ℚ) (iterations : ℕ) : ℕ → ℚ → ℚ → ℕ → ℕ
  | 0, _, _, iteration => iteration
  | fuel + 1, x, y, iteration =>
    if x * x + y * y < 4 ∧ iteration < iterations then
      escapeSteps x0 y0 iterations fuel (x * x - y * y + x0) (2 * x * y + y0)
        (iteration + 1)
    else iteration

/-- The value of `iteration` when the `while` loop of `_baseRender` exits. -/
def escapeIteration (x0 y0 : ℚ) (iterations : ℕ) : ℕ :=
  escapeSteps x0 y0 iterations iterations 0 0 0

/-- `intensity = ((iteration==iterations) ? 0 : iteration)/iterations` -/
def mandelIntensity (x0 y0 : ℚ) (iterations : ℕ) : ℚ :=
  (if escapeIteration x0 y0 iterations = iterations then (0 : ℚ)
   else (escapeIteration x0 y0 iterations : ℚ)) / (iterations : ℚ)

/-- The orbit of the quadratic iteration `z ← z² + c`, `z₀ = 0`,
`c = (x0, y0)`, in the coordinates used by the source
(`x ← x*x - y*y + x0`, `y ← 2*x*y + y0`). -/
def mandelOrbit (x0 y0 : ℚ) : ℕ → ℚ × ℚ
  | 0 => (0, 0)
  | n + 1 =>
    let z := mandelOrbit x0 y0 n
    (z.1 * z.1 - z.2 * z.2 + x0, 2 * z.1 * z.2 + y0)

/-- `|z|²`, the squared magnitude tested by the loop guard. -/
def sqMag (z : ℚ × ℚ) : ℚ := z.1 * z.1 + z.2 * z.2

/-! ### Loop lemmas -/

theorem le_escapeSteps (x0 y0 : ℚ) (K : ℕ) :
    ∀ (fuel : ℕ) (x y : ℚ) (it : ℕ), it ≤ escapeSteps x0 y0 K fuel x y it := by
  intro fuel
  induction fuel with
  | zero => intro x y it; simp [escapeSteps]
  | succ n ih =>
    intro x y it
    rw [escapeSteps]
    split
    · exact le_trans (Nat.le_succ it) (ih _ _ _)
    · exact le_refl it

theorem escapeSteps_le (x0 y0 : ℚ) (K : ℕ) :
    ∀ (fuel : ℕ) (x y : ℚ) (it : ℕ), it ≤ K → escapeSteps x0 y0 K fuel x y it ≤ K := by
  intro fuel
  induction fuel with
  | zero => intro x y it h; simpa [escapeSteps] using h
  | succ n ih =>
    intro x y it h
    rw [escapeSteps]
    split
    · rename_i hg
      exact ih _ _ _ hg.2
    · exact h

theorem escapeIteration_le (x0 y0 : ℚ) (K : ℕ) : escapeIteration x0 y0 K ≤ K :=
  escapeSteps_le x0 y0 K K 0 0 0 (Nat.zero_le K)

theorem one_le_escapeIteration (x0 y0 : ℚ) (K : ℕ) (hK : 1 ≤ K) :
    1 ≤ escapeIteration x0 y0 K := by
  obtain ⟨f, rfl⟩ : ∃ f, K = f + 1 := ⟨K - 1, by omega⟩
  show 1 ≤ escapeSteps x0 y0 (f + 1) (f + 1) 0 0 0
  rw [escapeSteps, if_pos (by norm_num)]
  exact le_escapeSteps x0 y0 (f + 1) f _ _ 1

/-- The loop runs the full `K` iterations exactly when `|z|² < 4` holds at
every guard check, i.e. at the first `K` orbit points. -/
theorem escapeSteps_eq_cap_iff (x0 y0 : ℚ) (K : ℕ) :
    ∀ (fuel it : ℕ), it + fuel = K →
      (escapeSteps x0 y0 K fuel (mandelOrbit x0 y0 it).1
          (mandelOrbit x0 y0 it).2 it = K ↔
        ∀ j, it ≤ j → j < K → sqMag (mandelOrbit x0 y0 j) < 4) := by
  intro fuel
  induction fuel with
  | zero =>
    intro it hit
    have hKit : K = it := by omega
    subst hKit
    constructor
    · intro _ j h1 h2; omega
    · intro _; rfl
  | succ n ih =>
    intro it hit
    have hitK : it < K := by omega
    by_cases h4 : sqMag (mandelOrbit x0 y0 it) < 4
    · have hg : (mandelOrbit x0 y0 it).1 * (mandelOrbit x0 y0 it).1 +
          (mandelOrbit x0 y0 it).2 * (mandelOrbit x0 y0 it).2 < 4 ∧ it < K :=
        ⟨h4, hitK⟩
      rw [escapeSteps, if_pos hg]
      have horb : mandelOrbit x0 y0 (it + 1) =
          ((mandelOrbit x0 y0 it).1 * (mandelOrbit x0 y0 it).1 -
              (mandelOrbit x0 y0 it).2 * (mandelOrbit x0 y0 it).2 + x0,
            2 * (mandelOrbit x0 y0 it).1 * (mandelOrbit x0 y0 it).2 + y0) := by
        simp [mandelOrbit]
      have := ih (it + 1) (by omega)
      rw [horb] at this
      rw [this]
      constructor
      · intro h j h1 h2
        rcases Nat.eq_or_lt_of_le h1 with h1 | h1
        · exact h1 ▸ h4
        · exact h j h1 h2
      · intro h j h1 h2
        exact h j (by omega) h2
    · have hg : ¬((mandelOrbit x0 y0 it).1 * (mandelOrbit x0 y0 it).1 +
          (mandelOrbit x0 y0 it).2 * (mandelOrbit x0 y0 it).2 < 4 ∧ it < K) := by
        intro hc; exact h4 hc.1
      rw [escapeSteps, if_neg hg]
      constructor
      · intro h; omega
      · intro h; exact absurd (h it (le_refl it) hitK) h4

theorem escapeIteration_eq_cap_iff (x0 y0 : ℚ) (K : ℕ) :
    escapeIteration x0 y0 K = K ↔
      ∀ j, j < K → sqMag (mandelOrbit x0 y0 j) < 4 := by
  have h := escapeSteps_eq_cap_iff x0 y0 K K 0 (by omega)
  simp only [mandelOrbit] at h
  constructor
  · intro he j hj
    exact (h.mp he) j (Nat.zero_le j) hj
  · intro hall
    exact h.mpr fun j _ hj => hall j hj

end MandelbrotJS

namespace MandelbrotJS

/-- C1: The escape-time evaluator of `_baseRender`: for every complex
coordinate `(x0, y0)` and every iteration cap `K ≥ 1`, the intensity is `0` or
`j/K` for some `1 ≤ j ≤ K - 1`, and never `1`; it is `0` whenever the loop
runs all `K` iterations with `|z|² < 4` at every guard check, and whenever the
loop stops short of the cap the intensity is (iterations performed)`/K`. -/
theorem escape_intensity_range (x0 y0 : ℚ) (K : ℕ) (hK : 1 ≤ K) :
    (mandelIntensity x0 y0 K = 0 ∨
      ∃ j : ℕ, 1 ≤ j ∧ j + 1 ≤ K ∧ mandelIntensity x0 y0 K = (j : ℚ) / (K : ℚ)) ∧
    mandelIntensity x0 y0 K ≠ 1 ∧
    ((∀ j, j < K → sqMag (mandelOrbit x0 y0 j) < 4) → mandelIntensity x0 y0 K = 0) ∧
    (escapeIteration x0 y0 K ≠ K →
      mandelIntensity x0 y0 K = (escapeIteration x0 y0 K : ℚ) / (K : ℚ)) := by
  have hle := escapeIteration_le x0 y0 K
  have hpos := one_le_escapeIteration x0 y0 K hK
  by_cases hcap : escapeIteration x0 y0 K = K
  · have h0 : mandelIntensity x0 y0 K = 0 := by
      simp [mandelIntensity, hcap]
    refine ⟨Or.inl h0, ?_, fun _ => h0, fun hne => absurd hcap hne⟩
    rw [h0]; norm_num
  · have hlt : escapeIteration x0 y0 K < K := lt_of_le_of_ne hle hcap
    have hval : mandelIntensity x0 y0 K = (escapeIteration x0 y0 K : ℚ) / (K : ℚ) := by
      simp [mandelIntensity, hcap]
    have hKQ : (0 : ℚ) < (K : ℚ) := by exact_mod_cast Nat.lt_of_lt_of_le Nat.zero_lt_one hK
    have hlt1 : mandelIntensity x0 y0 K < 1 := by
      rw [hval, div_lt_one hKQ]
      exact_mod_cast hlt
    refine ⟨Or.inr ⟨escapeIteration x0 y0 K, hpos, by omega, hval⟩, ne_of_lt hlt1,
      ?_, fun _ => hval⟩
    intro hall
    exact absurd ((escapeIteration_eq_cap_iff x0 y0 K).mpr hall) hcap

/-- Witness for C1 at the origin with cap `K = 1`: the origin never escapes,
so the intensity is `0` and in particular differs from `1`. -/
theorem escape_intensity_range_app :
    mandelIntensity 0 0 1 = 0 ∧ mandelIntensity 0 0 1 ≠ 1 :=
  ⟨(escape_intensity_range 0 0 1 (by decide)).2.2.1
      (by
        intro j hj
        obtain rfl : j = 0 := by omega
        norm_num [mandelOrbit, sqMag]),
   (escape_intensity_range 0 0 1 (by decide)).2.1⟩

/-- C2: The viewport transform computed by `_baseRender` agrees exactly
with the spec's formulas: `widthScalar = 3.5/s`,
`heightScalar = (3.5*H/W)/s`, `Tx = Px - dx*s`, `Ty = Py - dy*s`,
`x0 = (widthScalar/W)*Tx - widthScalar/1.4`,
`y0 = (heightScalar/H)*Ty - heightScalar/2`.  The embedding is a pure
function of its inputs, so it has no side effects on any other state. -/
theorem viewportTransform_eq_spec (Px Py W H : ℕ) (s dx dy : ℚ)
    (_hW : 0 < W) (_hH : 0 < H) (_hs : 0 < s) :
    viewportTransform Px Py W H s dx dy = viewportTransformSpec Px Py W H s dx dy := by
  rfl

/-- Witness for C2 at `Px=1, Py=2, W=3, H=4, s=5, dx=6, dy=7`. -/
theorem viewportTransform_eq_spec_app :
    0 < 3 ∧ 0 < 4 ∧ (0 : ℚ) < 5 ∧
      viewportTransform 1 2 3 4 5 6 7 = viewportTransformSpec 1 2 3 4 5 6 7 :=
  ⟨by decide, by decide, by norm_num,
   viewportTransform_eq_spec 1 2 3 4 5 6 7 (by decide) (by decide) (by norm_num)⟩

end MandelbrotJS

namespace MandelbrotJS

/-! ## Column striping (`_baseRender` line 152, `_renderWorkers` lines 92-106)

`_renderWorkers` spawns one task per `i ∈ [0, xSkip)` with `rConfig.xInit = i`,
and each task's column loop in `_baseRender` is

  for(var Px = e.data.xInit; Px < width; Px = Px + e.data.xSkip) { ... }

The loop is translated with explicit fuel.  With `xSkip ≥ 1` the loop performs
at most `width` iterations (each step increases `Px` by at least one and the
visited values are distinct elements of `[xInit, width)`), so fuel `width` is
never exhausted before the guard fails and the translation is exact.  (With
`xSkip = 0` the JavaScript loop would never terminate.) -/

def columnLoop (xSkip width : ℕ) : ℕ → ℕ → List ℕ
  | 0, _ => []
  | fuel + 1, Px =>
    if Px < width then Px :: columnLoop xSkip width fuel (Px + xSkip) else []

/-- The columns visited by the render task with offset `xInit` and stride
`xSkip` on an image of the given width. -/
def workerColumns (xSkip width xInit : ℕ) : List ℕ :=
  columnLoop xSkip width width xInit

theorem mem_columnLoop (k w : ℕ) :
    ∀ (fuel P px : ℕ), px ∈ columnLoop k w fuel P →
      px < w ∧ ∃ m, px = P + m * k := by
  intro fuel
  induction fuel with
  | zero => intro P px h; simp [columnLoop] at h
  | succ n ih =>
    intro P px h
    rw [columnLoop] at h
    by_cases hP : P < w
    · rw [if_pos hP] at h
      rcases List.mem_cons.mp h with h | h
      · exact ⟨h ▸ hP, 0, by omega⟩
      · obtain ⟨hpx, m, hm⟩ := ih _ _ h
        refine ⟨hpx, m + 1, ?_⟩
        rw [Nat.succ_mul]
        omega
    · rw [if_neg hP] at h
      simp at h

theorem columnLoop_mem (k w : ℕ) :
    ∀ (fuel P m : ℕ), m < fuel → P + m * k < w →
      P + m * k ∈ columnLoop k w fuel P := by
  intro fuel
  induction fuel with
  | zero => intro P m hm _; exact absurd hm (Nat.not_lt_zero m)
  | succ n ih =>
    intro P m hm hw
    have hPw : P < w := by
      have : P ≤ P + m * k := Nat.le_add_right _ _
      omega
    rw [columnLoop, if_pos hPw]
    cases m with
    | zero => simp
    | succ m' =>
      have hre : P + (m' + 1) * k = (P + k) + m' * k := by
        rw [Nat.succ_mul]; omega
      rw [hre] at hw ⊢
      exact List.mem_cons_of_mem _ (ih (P + k) m' (by omega) hw)

theorem mem_workerColumns_iff (k w xInit px : ℕ) (hk : 0 < k) :
    px ∈ workerColumns k w xInit ↔ px < w ∧ ∃ m, px = xInit + m * k := by
  constructor
  · exact mem_columnLoop k w w xInit px
  · rintro ⟨hpw, m, rfl⟩
    apply columnLoop_mem k w w xInit m ?_ hpw
    have h1 : m * 1 ≤ m * k := Nat.mul_le_mul (Nat.le_refl m) hk
    rw [Nat.mul_one] at h1
    omega

/-- C3: For parallelism `N ≥ 1` and width `W ≥ 1`, the strided column
sets `{xInit, xInit+N, xInit+2N, …} ∩ [0,W)` of the `N` render tasks are
pairwise disjoint, stay inside `[0,W)`, and every column of `[0,W)` belongs to
exactly one task. -/
theorem worker_columns_partition (N W : ℕ) (hN : 1 ≤ N) (_hW : 1 ≤ W) :
    (∀ px, px < W → ∃! i, i < N ∧ px ∈ workerColumns N W i) ∧
    (∀ i px, px ∈ workerColumns N W i → px < W) ∧
    (∀ i j, i < N → j < N → i ≠ j →
      ∀ px, px ∈ workerColumns N W i → px ∉ workerColumns N W j) := by
  have hN0 : 0 < N := hN
  have key : ∀ i px, i < N → px ∈ workerColumns N W i → i = px % N := by
    intro i px hi hmem
    obtain ⟨-, m, rfl⟩ := (mem_workerColumns_iff N W i px hN0).mp hmem
    rw [Nat.add_mul_mod_self_right, Nat.mod_eq_of_lt hi]
  refine ⟨?_, ?_, ?_⟩
  · intro px hpx
    refine ⟨px % N, ⟨Nat.mod_lt px hN0, ?_⟩, ?_⟩
    · rw [mem_workerColumns_iff _ _ _ _ hN0]
      exact ⟨hpx, px / N, by rw [Nat.mod_add_div']⟩
    · rintro y ⟨hy, hymem⟩
      exact key y px hy hymem
  · intro i px hmem
    exact (mem_columnLoop N W W i px hmem).1
  · intro i j hi hj hij px hmi hmj
    have h1 := key i px hi hmi
    have h2 := key j px hj hmj
    exact hij (h1.trans h2.symm)

/-- Witness for C3: with parallelism `2` and width `5`, column `3` is owned by
exactly one render task. -/
theorem worker_columns_partition_app :
    ∃! i, i < 2 ∧ (3 : ℕ) ∈ workerColumns 2 5 i :=
  (worker_columns_partition 2 5 (by decide) (by decide)).1 3 (by decide)

end MandelbrotJS

namespace MandelbrotJS

/-! ## Pixel shader (`_pixelShader`, lines 185-202)

  _pixelShader(Px,Py,intensity, mode){
      switch(mode){
          case this.shaderModes["BLUE"]:
              let int1 = intensity*((-1/4)*Math.log((-1/11.112347)*intensity+0.09)-0.25);
              let int2 = (intensity*(1-2.4*Math.log(intensity+0.0000000001)));
              return {x:Px,y:Py,r:255*int1,g:255*int1,b:255*int2,a:255};
          case this.shaderModes["WHITE"]:
              return {x:Px,y:Py,r:255*intensity,g:255*intensity,b:255*intensity,a:255};
          case this.shaderModes["HIST"]:
              //TODO
              break;
          case this.shaderModes["INTHIST"]:
              //TODO
              break;
          default:
              return this._pixelShader(Px,Py,intentisty,this.defaultShader);
      }
  }

The `HIST` and `INTHIST` cases fall out of the `switch` with no `return`, so
the method returns `undefined` (`ShaderOut.undef` below).  The `default` case
references the identifier `intentisty` — a misspelling of `intensity` that is
bound nowhere — so in JavaScript it throws a `ReferenceError` before the
recursive call can return (`ShaderOut.refError` below).  `Math.log` is kept
abstract as a parameter `log : ℚ → ℚ`. -/

def shaderModesBLUE : ℕ := 0
def shaderModesWHITE : ℕ := 1
def shaderModesHIST : ℕ := 2
def shaderModesINTHIST : ℕ := 3

/-- `this.defaultShader = this.shaderModes["BLUE"]` (constructor, line 33). -/
def defaultShader : ℕ := shaderModesBLUE

/-- The pixel record `{x, y, r, g, b, a}` returned by `_pixelShader`. -/
structure Pixel where
  x : ℕ
  y : ℕ
  r : ℚ
  g : ℚ
  b : ℚ
  a : ℚ
deriving DecidableEq, Repr

/-- The observable outcome of a `_pixelShader` call. -/
inductive ShaderOut where
  /-- The method returned a pixel record. -/
  | px : Pixel → ShaderOut
  /-- The method fell out of the `switch` and returned `undefined`. -/
  | undef : ShaderOut
  /-- The method threw a `ReferenceError` (the misspelled `intentisty` in the
  `default` branch). -/
  | refError : ShaderOut
deriving DecidableEq, Repr

/-- First argument passed to `Math.log` in the BLUE branch:
`(-1/11.112347)*intensity+0.09`. -/
def blueLogArg1 (intensity : ℚ) : ℚ := (-1 / 11.112347) * intensity + 0.09

/-- Second argument passed to `Math.log` in the BLUE branch:
`intensity+0.0000000001`. -/
def blueLogArg2 (intensity : ℚ) : ℚ := intensity + 0.0000000001

def pixelShader (log : ℚ → ℚ) (Px Py : ℕ) (intensity : ℚ) (mode : ℕ) :
    ShaderOut :=
  if mode = shaderModesBLUE then
    let int1 := intensity * ((-1 / 4) * log (blueLogArg1 intensity) - 0.25)
    let int2 := intensity * (1 - 2.4 * log (blueLogArg2 intensity))
    .px ⟨Px, Py, 255 * int1, 255 * int1, 255 * int2, 255⟩
  else if mode = shaderModesWHITE then
    .px ⟨Px, Py, 255 * intensity, 255 * intensity, 255 * intensity, 255⟩
  else if mode = shaderModesHIST then
    .undef
  else if mode = shaderModesINTHIST then
    .undef
  else
    .refError

/-- C5 counterexample: At pixel `(1,2)` with intensity `1/2`, requesting
mode `HIST` makes `_pixelShader` return `undefined` — a silent absent color,
not an explicit unsupported-mode error (for any logarithm function; `fun _ => 0`
instantiates it). -/
theorem pixelShader_hist_not_error :
    pixelShader (fun _ => 0) 1 2 (1 / 2) shaderModesHIST = ShaderOut.undef :=
  rfl

/-- C5 amended: For every pixel position, intensity and logarithm
function, calling `_pixelShader` with mode `HIST` or `INTHIST` silently
returns `undefined`: the unimplemented cases break out of the `switch`
without raising any error and without producing a color. -/
theorem pixelShader_unimplemented_silent (log : ℚ → ℚ) (Px Py : ℕ)
    (intensity : ℚ) :
    pixelShader log Px Py intensity shaderModesHIST = ShaderOut.undef ∧
    pixelShader log Px Py intensity shaderModesINTHIST = ShaderOut.undef :=
  ⟨rfl, rfl⟩

/-- C6 code bug: An unrecognized mode (here `7`) reaches the `default`
branch, whose fallback call `this._pixelShader(Px,Py,intentisty,this.defaultShader)`
reads the undefined identifier `intentisty`; the call therefore throws a
`ReferenceError` instead of returning the BLUE output the fallback intends. -/
theorem pixelShader_unknown_mode_throws :
    pixelShader (fun _ => 0) 0 0 (1 / 2) 7 = ShaderOut.refError ∧
    ShaderOut.refError ≠ pixelShader (fun _ => 0) 0 0 (1 / 2) defaultShader := by
  constructor
  · rfl
  · intro h
    rw [show pixelShader (fun _ => 0) 0 0 (1 / 2) defaultShader =
        ShaderOut.px ⟨0, 0, 255 * ((1 / 2) * ((-1 / 4) * 0 - 0.25)),
          255 * ((1 / 2) * ((-1 / 4) * 0 - 0.25)),
          255 * ((1 / 2) * (1 - 2.4 * 0)), 255⟩ from rfl] at h
    exact ShaderOut.noConfusion h

/-- C10: For every intensity in `[0, 1)`, both arguments the BLUE branch
feeds to `Math.log` are strictly positive — `(-1/11.112347)*intensity + 0.09 > 0`
and `intensity + 1e-10 > 0` — so (the logarithm of a positive number being
finite) BLUE mode always returns a pixel record, with alpha `255`.  In
particular the real `Math.log` is never evaluated at `0` or at a negative
number, the only inputs where it yields `-Infinity` or `NaN`. -/
theorem blue_log_arguments_pos (intensity : ℚ)
    (h0 : 0 ≤ intensity) (h1 : intensity < 1) :
    0 < blueLogArg1 intensity ∧ 0 < blueLogArg2 intensity ∧
    ∀ (log : ℚ → ℚ) (Px Py : ℕ), ∃ p : Pixel,
      pixelShader log Px Py intensity shaderModesBLUE = ShaderOut.px p ∧
      p.a = 255 := by
  refine ⟨?_, ?_, ?_⟩
  · unfold blueLogArg1
    nlinarith
  · unfold blueLogArg2
    nlinarith
  · intro log Px Py
    exact ⟨_, rfl, rfl⟩

/-- Witness for C10 at intensity `1/2`. -/
theorem blue_log_arguments_pos_app :
    0 < blueLogArg1 (1 / 2) ∧ 0 < blueLogArg2 (1 / 2) ∧
    ∀ (log : ℚ → ℚ) (Px Py : ℕ), ∃ p : Pixel,
      pixelShader log Px Py (1 / 2) shaderModesBLUE = ShaderOut.px p ∧
      p.a = 255 :=
  blue_log_arguments_pos (1 / 2) (by norm_num) (by norm_num)

end MandelbrotJS

namespace MandelbrotJS

/-! ## `render()` (lines 49-74)

  render(){
      if(this.width != this.canvas2d.getWidth() || ...){ ... }
      let rConfig = {
          heightScalar: this.heightScalar,
          iterations: this.iterations,
          scale:  this.scale,
          width:  this.width,
          height: this.height,
          xDelta: this.xDelta,
          yDelta: this.yDelta,
          xSkip:  this.parallelism
      }
      this.canvas2d.clearBuffer();
      if(window.Worker && this.renderParallel){ this._renderWorkers(rConfig); }
      else{ this._renderDirect(rConfig); }
  }

There is no validation of any kind: the configuration is packaged and handed
to one of the two render paths unconditionally.  `_renderDirect` overwrites
`xSkip` with `1` (line 116). -/

structure RConfig where
  heightScalar : Option ℚ
  iterations : ℕ
  scale : ℚ
  width : ℕ
  height : ℕ
  xDelta : ℚ
  yDelta : ℚ
  xSkip : ℕ

/-- What `render()` does with a request: dispatch the worker path, dispatch
the direct path, or fail with a configuration error.  The source never takes
the third alternative; the constructor exists to state claim C7. -/
inductive RenderAction where
  | workers : RConfig → RenderAction
  | direct : RConfig → RenderAction
  | configError : RenderAction

def render (prevHeightScalar : Option ℚ) (iterations : ℕ) (scale : ℚ)
    (width height : ℕ) (xDelta yDelta : ℚ) (parallelism : ℕ)
    (workerAvailable renderParallel : Bool) : RenderAction :=
  let rConfig : RConfig :=
    ⟨prevHeightScalar, iterations, scale, width, height, xDelta, yDelta,
      parallelism⟩
  if workerAvailable && renderParallel then
    RenderAction.workers rConfig
  else
    RenderAction.direct { rConfig with xSkip := 1 }

/-- C7 counterexample: A request with scale `0`, iteration cap `0` and a
zero-sized image is dispatched to the worker path anyway: `render` performs no
validation and never produces a configuration error. -/
theorem render_invalid_config_dispatches :
    render none 0 0 0 0 0 0 2 true true =
      RenderAction.workers ⟨none, 0, 0, 0, 0, 0, 0, 2⟩ ∧
    render none 0 0 0 0 0 0 2 true true ≠ RenderAction.configError :=
  ⟨rfl, fun h => RenderAction.noConfusion h⟩

/-- C7 amended: `render` performs no configuration validation: every
request — including any with zero or negative scale, a zero iteration cap, or
a zero-sized image — is dispatched to the worker path or the direct path, and
no configuration error is ever raised. -/
theorem render_never_config_error (prevHeightScalar : Option ℚ)
    (iterations : ℕ) (scale : ℚ) (width height : ℕ) (xDelta yDelta : ℚ)
    (parallelism : ℕ) (workerAvailable renderParallel : Bool) :
    (∃ c, render prevHeightScalar iterations scale width height xDelta yDelta
        parallelism workerAvailable renderParallel = RenderAction.workers c ∨
      render prevHeightScalar iterations scale width height xDelta yDelta
        parallelism workerAvailable renderParallel = RenderAction.direct c) ∧
    render prevHeightScalar iterations scale width height xDelta yDelta
      parallelism workerAvailable renderParallel ≠ RenderAction.configError := by
  unfold render
  split
  · exact ⟨⟨_, Or.inl rfl⟩, fun h => RenderAction.noConfusion h⟩
  · exact ⟨⟨_, Or.inr rfl⟩, fun h => RenderAction.noConfusion h⟩

/-! ## Worker flush trigger (`_renderWorkers`, lines 98-99)

  if(e.data.Px % (width*xSkip/100) <= 1 || e.data.Px > width-xSkip-1)
      this.canvas2d.flushBuffer();

JavaScript `%` on numbers is `a - b*trunc(a/b)`; for the nonnegative operands
that occur here `trunc` is `floor`.  When the modulus `width*xSkip/100` is
zero, `Px % 0` is `NaN` and `NaN <= 1` is `false`, which the `m ≠ 0` conjunct
reproduces. -/

def jsMod (a b : ℚ) : ℚ := a - b * (⌊a / b⌋ : ℤ)

def flushAfterColumn (width xSkip Px : ℕ) : Prop :=
  (((width : ℚ) * (xSkip : ℚ) / 100 ≠ 0) ∧
    jsMod (Px : ℚ) ((width : ℚ) * (xSkip : ℚ) / 100) ≤ 1) ∨
  (width : ℚ) - (xSkip : ℚ) - 1 < (Px : ℚ)

/-- C8 counterexample: With `width = 400` and `xSkip = 1`, the column
`Px = 398 = width - xSkip - 1` — the first of the claim's "last `xSkip+1`
columns" — does not trigger a flush: `398 % 4 = 2 > 1` and
`398 > 398` is false. -/
theorem flush_misses_boundary_column :
    ¬ flushAfterColumn 400 1 398 ∧
    (400 : ℚ) - 1 - 1 ≤ (398 : ℚ) := by
  constructor
  · intro h
    have hfloor : ⌊(398 : ℚ) / ((400 : ℚ) * (1 : ℚ) / 100)⌋ = 99 := by
      rw [Int.floor_eq_iff]
      norm_num
    rcases h with ⟨-, hmod⟩ | hgt
    · rw [jsMod] at hmod
      push_cast at hmod
      rw [hfloor] at hmod
      norm_num at hmod
    · norm_num at hgt
  · norm_num

/-- C8 amended: The position-based flush policy triggers a flush
unconditionally for every one of the last `xSkip` columns, i.e. for every
column `Px` with `Px > width - xSkip - 1` (equivalently `Px ≥ width - xSkip`)
— one column fewer than the claimed `xSkip + 1`. -/
theorem flush_last_stride_columns (width xSkip Px : ℕ)
    (h : (width : ℚ) - (xSkip : ℚ) - 1 < (Px : ℚ)) :
    flushAfterColumn width xSkip Px :=
  Or.inr h

/-- Witness for the amended C8: with `width = 400`, `xSkip = 1`, the last
column `Px = 399` always flushes. -/
theorem flush_last_stride_columns_app : flushAfterColumn 400 1 399 :=
  flush_last_stride_columns 400 1 399 (by norm_num)

end MandelbrotJS

namespace MandelbrotJS

/-! ## Render generations (`render` line 66, `_renderWorkers` lines 86-106)

A `render()` call runs as one synchronous JavaScript block: it clears the
buffer (`this.canvas2d.clearBuffer()`, line 66) and `_renderWorkers` then pops
and `terminate()`s every worker of the previous generation (lines 88-90)
before spawning the new ones (lines 92-106).  The JavaScript event loop
delivers worker messages only between synchronous blocks, so no message can
be handled between the clear and the terminations, and a terminated worker
delivers no further messages.

Modelled from the spec: `SyntheticWorker` (the worker abstraction the source
instantiates) is not under `src/`; its termination/delivery semantics are
modelled after the spec's invalidation requirement ("starting a new
generation must first invalidate the previous one, either by cooperative
cancellation signal or by ignoring late output tagged with a stale
generation id").  The state machine below tags workers and buffered pixels
with a generation id: a `render` step atomically clears the buffer, removes
all old workers and spawns `n` workers of the next generation; an `emit`
step lets a still-live worker write one pixel; a `selfTerminate` step is the
`Px >= width-(xSkip-i)` self-termination of line 100. -/

structure SchedState where
  activeGen : ℕ
  live : List ℕ
  buffer : List (ℕ × ℕ × ℕ)

/-- Before the first `render()`: no workers, empty buffer. -/
def initialSched : SchedState := ⟨0, [], []⟩

inductive SchedStep : SchedState → SchedState → Prop
  | render (s : SchedState) (n : ℕ) :
      SchedStep s ⟨s.activeGen + 1, List.replicate n (s.activeGen + 1), []⟩
  | emit (s : SchedState) (g Px Py : ℕ) (hg : g ∈ s.live) :
      SchedStep s ⟨s.activeGen, s.live, (g, Px, Py) :: s.buffer⟩
  | selfTerminate (s : SchedState) (g : ℕ) (hg : g ∈ s.live) :
      SchedStep s ⟨s.activeGen, s.live.erase g, s.buffer⟩

def SchedReachable (s : SchedState) : Prop :=
  Relation.ReflTransGen SchedStep initialSched s

theorem sched_invariant (s : SchedState) (h : SchedReachable s) :
    (∀ g ∈ s.live, g = s.activeGen) ∧ ∀ p ∈ s.buffer, p.1 = s.activeGen := by
  induction h with
  | refl => constructor <;> simp [initialSched]
  | tail _ hstep ih =>
    cases hstep with
    | render n =>
      constructor
      · intro g hg
        simp [List.eq_of_mem_replicate hg]
      · intro p hp
        simp at hp
    | emit g Px Py hg =>
      obtain ⟨hl, hb⟩ := ih
      refine ⟨hl, ?_⟩
      intro p hp
      rcases List.mem_cons.mp hp with rfl | hp
      · exact hl g hg
      · exact hb p hp
    | selfTerminate g hg =>
      obtain ⟨hl, hb⟩ := ih
      exact ⟨fun g' hg' => hl g' (List.mem_of_mem_erase hg'), hb⟩

/-- C4: In every reachable scheduler state, every pixel in the
framebuffer — i.e. written since the most recent clear — is tagged with the
currently active generation: once a new generation's `render` step has
cleared the buffer, no pixel of a superseded generation can appear in it,
because the clear and the invalidation of the old workers happen in the same
atomic step and only live (hence current-generation) workers emit. -/
theorem generation_isolation (s : SchedState) (h : SchedReachable s) :
    ∀ p ∈ s.buffer, p.1 = s.activeGen :=
  (sched_invariant s h).2

/-- Witness for C4: after one `render` (generation 1, two workers) and one
emit by a live worker, the buffered pixel `(1, 2, 3)` carries the active
generation id. -/
theorem generation_isolation_app :
    ((1 : ℕ), (2 : ℕ), (3 : ℕ)).1 =
      (SchedState.mk 1 [1, 1] [(1, 2, 3)]).activeGen :=
  generation_isolation ⟨1, [1, 1], [(1, 2, 3)]⟩
    (Relation.ReflTransGen.tail
      (Relation.ReflTransGen.single (SchedStep.render initialSched 2))
      (SchedStep.emit ⟨1, [1, 1], []⟩ 1 2 3 (by simp)))
    (1, 2, 3) (by simp)

end MandelbrotJS

namespace MandelbrotJS

/-! ## Direct (sequential) render (`_renderDirect`, lines 115-134)

  _renderDirect(rConfig){
      rConfig.xSkip = 1;
      rConfig.xInit = 0;
      const conf = { data: rConfig };
      let timeout = new Date().getTime();
      this._baseRender(conf, (toRender)=>{
          toRender.line.map((intensity,idx)=>{
              this.canvas2d.drawBufferedPixel(
                  this._pixelShader(toRender.Px, idx, intensity, this.shader));
          });
          this.heightScalar = toRender.heightScalar;
          if(new Date().getTime() - timeout > 50){
              timeout = new Date().getTime();
              setTimeout(()=>{ this.canvas2d.flushBuffer(); }, 50);
          }
      });
  }

The wall clock is abstracted as `clock : ℕ → ℤ`, the stream of values
returned by successive `new Date().getTime()` calls.  (On the callback path
of `_baseRender`, line 171, the emitted object carries no `heightScalar`
field — only the worker path posts it — so the handler stores `undefined`;
the `ColumnResult` field below carries the value the worker path would post,
which no claim depends on.) -/

structure ColumnResult where
  Px : ℕ
  line : List ℚ
  heightScalar : ℚ

/-- The inner `Py` loop of `_baseRender`: one intensity per row. -/
def renderLine (cfg : RConfig) (Px : ℕ) : List ℚ :=
  (List.range cfg.height).map fun Py =>
    mandelIntensity
      (viewportTransform Px Py cfg.width cfg.height cfg.scale cfg.xDelta
        cfg.yDelta).1
      (viewportTransform Px Py cfg.width cfg.height cfg.scale cfg.xDelta
        cfg.yDelta).2
      cfg.iterations

/-- The column results produced by `_baseRender` for the task with the given
`xInit`: one per owned column, in increasing column order. -/
def baseRender (cfg : RConfig) (xInit : ℕ) : List ColumnResult :=
  (workerColumns cfg.xSkip cfg.width xInit).map fun Px =>
    ⟨Px, renderLine cfg Px, heightScalar cfg.width cfg.height cfg.scale⟩

/-- The observable actions of the direct-render handler. -/
inductive REvent where
  /-- `drawBufferedPixel(_pixelShader(...))` -/
  | draw : ShaderOut → REvent
  /-- `setTimeout(()=>flushBuffer(), 50)` -/
  | flushLater : REvent

/-- The buffered-pixel draws of one column:
`toRender.line.map((intensity,idx)=> drawBufferedPixel(_pixelShader(toRender.Px, idx, intensity, shader)))`. -/
def columnDraws (log : ℚ → ℚ) (shader : ℕ) (col : ColumnResult) :
    List ShaderOut :=
  col.line.mapIdx fun idx intensity => pixelShader log col.Px idx intensity shader

/-- The handler loop of `_renderDirect` over the stream of column results,
threading the `timeout` variable and the clock-read counter `t`. -/
def directEventsAux (log : ℚ → ℚ) (shader : ℕ) (clock : ℕ → ℤ) :
    List ColumnResult → ℤ → ℕ → List REvent
  | [], _, _ => []
  | col :: rest, timeout, t =>
    if clock t - timeout > 50 then
      (columnDraws log shader col).map REvent.draw ++
        REvent.flushLater ::
          directEventsAux log shader clock rest (clock (t + 1)) (t + 2)
    else
      (columnDraws log shader col).map REvent.draw ++
        directEventsAux log shader clock rest timeout (t + 1)

/-- `_renderDirect`: forces `xSkip = 1` and `xInit = 0`, takes an initial
clock reading, and processes every column result. -/
def renderDirect (log : ℚ → ℚ) (shader : ℕ) (clock : ℕ → ℤ)
    (cfg : RConfig) : List REvent :=
  directEventsAux log shader clock (baseRender { cfg with xSkip := 1 } 0)
    (clock 0) 1

/-- The framebuffer writes among the events, in order. -/
def drawsOf (evts : List REvent) : List ShaderOut :=
  evts.filterMap fun e =>
    match e with
    | REvent.draw s => some s
    | REvent.flushLater => none

theorem drawsOf_append (a b : List REvent) :
    drawsOf (a ++ b) = drawsOf a ++ drawsOf b :=
  List.filterMap_append a b _

theorem drawsOf_cons_flush (l : List REvent) :
    drawsOf (REvent.flushLater :: l) = drawsOf l :=
  rfl

theorem drawsOf_map_draw (l : List ShaderOut) :
    drawsOf (l.map REvent.draw) = l := by
  induction l with
  | nil => rfl
  | cons a l ih =>
    show a :: drawsOf (l.map REvent.draw) = a :: l
    rw [ih]

theorem drawsOf_directEventsAux (log : ℚ → ℚ) (shader : ℕ) (clock : ℕ → ℤ) :
    ∀ (cols : List ColumnResult) (timeout : ℤ) (t : ℕ),
      drawsOf (directEventsAux log shader clock cols timeout t) =
        (cols.map (columnDraws log shader)).flatten := by
  intro cols
  induction cols with
  | nil => intro timeout t; rfl
  | cons col rest ih =>
    intro timeout t
    rw [directEventsAux]
    split
    · rw [drawsOf_append, drawsOf_map_draw, drawsOf_cons_flush, ih,
        List.map_cons, List.flatten_cons]
    · rw [drawsOf_append, drawsOf_map_draw, ih, List.map_cons,
        List.flatten_cons]

/-- The fixed end-to-end scenario: width 4, height 4, scale 1, pan (0,0),
50 iterations, parallelism 1. -/
def scenarioConfig : RConfig := ⟨none, 50, 1, 4, 4, 0, 0, 1⟩

/-- C9: The sequential render of the fixed scenario (width 4, height 4,
scale 1, pan (0,0), 50 iterations, shader WHITE, parallelism 1) is
deterministic: the sequence of framebuffer writes is independent of the wall
clock (which only throttles flushes) and of the logarithm function (WHITE
mode never calls it).  Any two runs — in particular two runs on identical
inputs — produce the identical, uniquely determined framebuffer content. -/
theorem direct_render_deterministic (log1 log2 : ℚ → ℚ) (c1 c2 : ℕ → ℤ) :
    drawsOf (renderDirect log1 shaderModesWHITE c1 scenarioConfig) =
      drawsOf (renderDirect log2 shaderModesWHITE c2 scenarioConfig) := by
  rw [renderDirect, renderDirect, drawsOf_directEventsAux,
    drawsOf_directEventsAux]
  have h : columnDraws log1 shaderModesWHITE = columnDraws log2 shaderModesWHITE := by
    funext col
    unfold columnDraws
    have hps : (fun idx intensity =>
        pixelShader log1 col.Px idx intensity shaderModesWHITE) =
        fun idx intensity =>
          pixelShader log2 col.Px idx intensity shaderModesWHITE := by
      funext idx intensity
      rfl
    rw [hps]
  rw [h]

end MandelbrotJS
